import Mathlib

/-!
Verification of the order-execution and risk-policy engine of
`src/trade_executor/main.py` (FastAPI service "Trade Executor (paper/live) + Risk").

Shallow embedding conventions:
* Python floats (quantities, prices, PnL, timestamps) are modelled as `ℚ`;
  all comparisons and arithmetic used by the engine are exact on the values
  involved, so `ℚ` is a faithful model of the control flow.
* Python `None` becomes `Option.none`; Python truthiness of an optional float
  (`if order.price:`) is `priceTruthy` below (false for `None` and for `0`).
* Calendar days are the strings produced by `str(date.today())`; we keep them
  abstract as `String`, compared for equality exactly as the source does.
* JSON documents on disk are modelled as values of the corresponding structure;
  `_save_json` / `_save_history` replace the stored value (wholesale overwrite).
* Reason strings follow the source; the qty-cap reason interpolates the cap via
  `toString`, standing in for the float formatting of Python.
-/

namespace TradeExec

/-- Rejection kinds of the risk policy (spec §4.3); each corresponds to one
`return {"ok": False, "code": ...}` branch of `_enforce_risk`. -/
inductive RejectKind where
  | Blocked
  | QtyCapExceeded
  | NotionalCapExceeded
  | RateLimited
  | DailyLossExceeded
deriving DecidableEq

/-- Order input model (`class Order(BaseModel)`, main.py lines 104-108). -/
structure Order where
  symbol : String
  side : String
  qty : ℚ
  price : Option ℚ
deriving DecidableEq

/-- Risk-policy configuration (`_risk` defaults, main.py lines 45-50).
`max_orders_per_min` is read through `int(...)` in the source, hence `ℕ`. -/
structure RiskPolicy where
  max_orders_per_min : ℕ
  daily_loss_limit : ℚ
  max_position_qty : ℚ
  max_notional : ℚ
deriving DecidableEq

/-- Mutable risk state (`_state`, main.py lines 51-57). -/
structure RiskState where
  day : String
  orders_last_min : List ℚ
  pnl_day : ℚ
  blocked : Bool
  block_reason : String
deriving DecidableEq

/-- The freshly reset state for a given day: the five assignments of the
day-rollover branch (main.py lines 82-88 and 247-252). -/
def freshState (today : String) : RiskState :=
  { day := today
    orders_last_min := []
    pnl_day := 0
    blocked := false
    block_reason := "" }

/-- Day-rollover: `if _state.get("day") != str(date.today())` reset everything
(main.py lines 247-252, same assignments as lines 82-88 in `load_all`). -/
def rolloverReset (st : RiskState) (today : String) : RiskState :=
  if st.day ≠ today then freshState today else st

/-- Python truthiness of the optional price: `if ... and order.price:`
(main.py line 264) — false for `None` and for a zero price. -/
def priceTruthy : Option ℚ → Bool
  | none => false
  | some p => decide (p ≠ 0)

/-- The rate-limit window filter: `[x for x in ... if t - x < 60]`
(main.py lines 215, 271, 290). -/
def pruneWindow (xs : List ℚ) (now : ℚ) : List ℚ :=
  xs.filter (fun x => now - x < 60)

/-- Global-block condition: `if _state.get("blocked")` (main.py line 255). -/
def condBlocked (s : RiskState) : Bool :=
  s.blocked

/-- Quantity-cap condition:
`_risk.get("max_position_qty", 0) and order.qty > _risk["max_position_qty"]`
(main.py line 259); the first conjunct is float truthiness (non-zero). -/
def condQty (risk : RiskPolicy) (o : Order) : Bool :=
  decide (risk.max_position_qty ≠ 0 ∧ risk.max_position_qty < o.qty)

/-- Notional-cap condition:
`_risk.get("max_notional", 0) and order.price` and then
`order.qty * float(order.price) > _risk["max_notional"]`
(main.py lines 264-265). -/
def condNotional (risk : RiskPolicy) (o : Order) : Bool :=
  decide (risk.max_notional ≠ 0 ∧ priceTruthy o.price = true ∧
    risk.max_notional < o.qty * o.price.getD 0)

/-- Rate-limit condition: `len(window) >= int(_risk.get("max_orders_per_min", 30))`
on the pruned window (main.py lines 270-272). -/
def condRate (risk : RiskPolicy) (s : RiskState) (now : ℚ) : Bool :=
  decide (risk.max_orders_per_min ≤ (pruneWindow s.orders_last_min now).length)

/-- Daily-loss condition:
`float(_risk.get("daily_loss_limit", 0)) > 0 and (-_state.get("pnl_day", 0.0)) >= float(_risk["daily_loss_limit"])`
(main.py line 277). -/
def condDailyLoss (risk : RiskPolicy) (s : RiskState) : Bool :=
  decide (0 < risk.daily_loss_limit ∧ risk.daily_loss_limit ≤ -s.pnl_day)

/-- Result of `_enforce_risk`: the returned rejection (code and reason),
the in-memory `_state` afterwards, and the state written to
`risk_state.json` during the call, if any (`_save_json` on line 280 is the
only save inside `_enforce_risk`). -/
structure EnforceResult where
  rej : Option (RejectKind × String)
  state : RiskState
  saved : Option RiskState
deriving DecidableEq

/-- The state latched by the daily-loss rule (main.py lines 278-279). -/
def latchedOf (st : RiskState) (today : String) : RiskState :=
  { rolloverReset st today with
      blocked := true
      block_reason := "daily loss limit exceeded" }

/-- Shallow embedding of `_enforce_risk` (main.py lines 245-284): day rollover
first, then the five rejection rules in source order, first match wins;
the daily-loss branch latches the block and persists the state. -/
def enforceRisk (risk : RiskPolicy) (o : Order) (now : ℚ) (today : String)
    (st : RiskState) : EnforceResult :=
  let s := rolloverReset st today
  if condBlocked s then
    { rej := some (.Blocked, s.block_reason), state := s, saved := none }
  else if condQty risk o then
    { rej := some (.QtyCapExceeded, "qty>" ++ toString risk.max_position_qty)
      state := s, saved := none }
  else if condNotional risk o then
    { rej := some (.NotionalCapExceeded, "notional limit"), state := s, saved := none }
  else if condRate risk s now then
    { rej := some (.RateLimited, "too many orders per minute"), state := s, saved := none }
  else if condDailyLoss risk s then
    { rej := some (.DailyLossExceeded, "daily loss limit exceeded")
      state := latchedOf st today
      saved := some (latchedOf st today) }
  else
    { rej := none, state := s, saved := none }

/-- Model of `_after_fill` (main.py lines 286-292): append "now" to the window, prune it,
add the PnL delta (always `0.0` at both call sites), then persist. -/
def afterFill (st : RiskState) (now : ℚ) (pnlDelta : ℚ) : RiskState :=
  { st with
      orders_last_min := pruneWindow (st.orders_last_min ++ [now]) now
      pnl_day := st.pnl_day + pnlDelta }

/-- One persisted trade-ledger entry (`trades.json`), as appended by
`order_paper` / `order_live` (main.py lines 305-313 / 333-341); a ledger file
loaded from disk may also carry missing fields, which `positions` reads back
through `entry.get(...)`, hence the `Option` fields. -/
structure TradeRecord where
  id : String
  ts : String
  symbol : Option String
  side : Option String
  qty : Option ℚ
  price : Option ℚ
  mode : String
deriving DecidableEq

/-- Python `hex(n)` for the order id (main.py line 300): `0x` plus lowercase
hexadecimal digits. -/
def hexStr (n : ℕ) : String :=
  "0x" ++ String.mk (Nat.toDigits 16 n)

/-- The durable and per-process state an order submission touches:
`risk_state.json`, the trade ledger `trades.json`, and the length of the
in-memory `_positions` list that generates order ids (main.py line 17). -/
structure World where
  stateDisk : RiskState
  historyDisk : List TradeRecord
  positionsLen : ℕ
deriving DecidableEq

/-- Outcome of an order-submission request. -/
inductive Outcome where
  | rejected : RejectKind → String → Outcome
  | admitted : String → Outcome
deriving DecidableEq

/-- Shallow embedding of `order_paper` / `order_live` (main.py lines 294-320 and
322-348, identical up to the `mode` tag): `load_all` reloads the persisted state
and performs the day rollover (persisting the reset, lines 82-88), then
`_enforce_risk` runs; a rejection is returned with no ledger append; an
admission assigns id `hex(len(_positions)+1)`, appends the record to the ledger,
and runs `_after_fill` which persists the updated risk state. -/
def submitOrder (risk : RiskPolicy) (o : Order) (now : ℚ) (today ts mode : String)
    (w : World) : Outcome × World :=
  let mem := rolloverReset w.stateDisk today
  let er := enforceRisk risk o now today mem
  let disk2 := er.saved.getD mem
  match er.rej with
  | some (k, reason) => (.rejected k reason, { w with stateDisk := disk2 })
  | none =>
      let oid := hexStr (w.positionsLen + 1)
      let entry : TradeRecord :=
        { id := oid, ts := ts, symbol := some o.symbol, side := some o.side
          qty := some o.qty, price := o.price, mode := mode }
      (.admitted oid,
        { stateDisk := afterFill er.state now 0
          historyDisk := w.historyDisk ++ [entry]
          positionsLen := w.positionsLen + 1 })

/-- A process restart: `trades.json` and `risk_state.json` are reloaded from
disk (`load_all`, main.py lines 75-88), but the in-memory `_positions` list
(main.py line 17) is never persisted nor repopulated from the ledger, so it
restarts empty. -/
def restart (w : World) : World :=
  { w with positionsLen := 0 }

/-- Model of `POST /risk_reset` (main.py lines 218-225): reload (with rollover), clear
`blocked` and `block_reason`, persist. -/
def riskReset (st : RiskState) (today : String) : RiskState :=
  { rolloverReset st today with blocked := false, block_reason := "" }

/-- The five rejection rules of `_enforce_risk`, in source order. -/
inductive Rule where
  | blocked
  | qtyCap
  | notionalCap
  | rateLimited
  | dailyLoss
deriving DecidableEq, Fintype

/-- Position of each rule in the fixed evaluation sequence of `_enforce_risk`. -/
def ruleIdx : Rule → ℕ
  | .blocked => 0
  | .qtyCap => 1
  | .notionalCap => 2
  | .rateLimited => 3
  | .dailyLoss => 4

/-- The rejection kind produced by each rule. -/
def ruleKind : Rule → RejectKind
  | .blocked => .Blocked
  | .qtyCap => .QtyCapExceeded
  | .notionalCap => .NotionalCapExceeded
  | .rateLimited => .RateLimited
  | .dailyLoss => .DailyLossExceeded

/-- The matching condition of each rule, exactly the `if` guards of
`_enforce_risk` (main.py lines 255, 259, 264-265, 272, 277), evaluated on the
post-rollover state. -/
def ruleCond (risk : RiskPolicy) (o : Order) (now : ℚ) (s : RiskState) : Rule → Bool
  | .blocked => condBlocked s
  | .qtyCap => condQty risk o
  | .notionalCap => condNotional risk o
  | .rateLimited => condRate risk s now
  | .dailyLoss => condDailyLoss risk s

/-- Reading `entry.get("symbol")` with the `if not sym` guard in mind (main.py
lines 153, 165): the symbol string, empty when missing. -/
def entSym (e : TradeRecord) : String :=
  e.symbol.getD ""

/-- ASCII lowercasing of a string, character by character: the model of
Python `str.lower()` (written with `List.map` so that it computes by
structural recursion; extensionally it is `String.toLower`). -/
def strLower (s : String) : String :=
  String.mk (s.data.map Char.toLower)

/-- Reading `(entry.get("side") or "").lower()` (main.py line 154). -/
def entSide (e : TradeRecord) : String :=
  strLower (e.side.getD "")

/-- Reading `float(entry.get("qty") or 0.0)` (main.py line 155). -/
def entQty (e : TradeRecord) : ℚ :=
  e.qty.getD 0

/-- The cost price: `float(price) if price is not None else 0.0`
(main.py lines 157-162). -/
def entCostPrice (e : TradeRecord) : ℚ :=
  e.price.getD 0

/-- Reading `sign = 1.0 if side == "buy" else -1.0` (main.py line 164). -/
def entSign (e : TradeRecord) : ℚ :=
  if entSide e = "buy" then 1 else -1

/-- One accumulation step into the `exposures` dict: the Python
`exposures.setdefault(sym, ...)` followed by in-place `+=` keeps insertion
order and updates the unique entry for the symbol (main.py lines 167-170). -/
def updExposure : List (String × ℚ × ℚ) → String → ℚ → ℚ → List (String × ℚ × ℚ)
  | [], s, dq, dc => [(s, dq, dc)]
  | (s', q, c) :: rest, s, dq, dc =>
    if s' = s then (s', q + dq, c + dc) :: rest
    else (s', q, c) :: updExposure rest s dq dc

/-- Processing of one history entry in the `positions` loop (main.py
lines 152-170): records with a falsy symbol are skipped, all others add
`sign*qty` to the quantity and `sign*qty*cost_price` to the cost. -/
def accumEntry (acc : List (String × ℚ × ℚ)) (e : TradeRecord) : List (String × ℚ × ℚ) :=
  if entSym e = "" then acc
  else updExposure acc (entSym e) (entSign e * entQty e) (entSign e * entQty e * entCostPrice e)

/-- The `exposures` dict after the accumulation loop of `positions`
(main.py lines 150-170), as an insertion-ordered association list. -/
def exposures (hist : List TradeRecord) : List (String × ℚ × ℚ) :=
  hist.foldl accumEntry []

/-- One element of the `positions` response (main.py line 179). -/
structure Position where
  symbol : String
  qty : ℚ
  avg_price : Option ℚ
deriving DecidableEq

/-- The epsilon of `abs(qty) > 1e-8` (main.py line 177). -/
def eps : ℚ :=
  1 / 100000000

/-- The result row built per symbol (main.py lines 173-179): average price is
`total_cost / qty` when `abs(qty) > 1e-8`, omitted (`None`) otherwise. -/
def mkPos (x : String × ℚ × ℚ) : Position :=
  { symbol := x.1, qty := x.2.1
    avg_price := if eps < |x.2.1| then some (x.2.2 / x.2.1) else none }

/-- Shallow embedding of `GET /positions` (main.py lines 135-180), as a
function of the ledger content. -/
def positionsOf (hist : List TradeRecord) : List Position :=
  (exposures hist).map mkPos

/-- First entry for a symbol in the exposures association list (the Python
dict has at most one). -/
def findSym : List (String × ℚ × ℚ) → String → Option (ℚ × ℚ)
  | [], _ => none
  | (s', q, c) :: rest, s => if s' = s then some (q, c) else findSym rest s

/-- First position for a symbol in the positions result list. -/
def findPos : List Position → String → Option Position
  | [], _ => none
  | p :: rest, s => if p.symbol = s then some p else findPos rest s

/-- Signed quantity contribution exactly as the source computes it
(`entSign`), used to state the correctness of the accumulation. -/
def sumQty (hist : List TradeRecord) (s : String) : ℚ :=
  (hist.map (fun e => if entSym e = s then entSign e * entQty e else 0)).sum

/-- Signed cost contribution exactly as the source computes it. -/
def sumCost (hist : List TradeRecord) (s : String) : ℚ :=
  (hist.map (fun e => if entSym e = s then entSign e * entQty e * entCostPrice e else 0)).sum

/-- The sign as the specification words it: `+1` for buys, `-1` for sells
(spec §3, Position: "buys contribute `+qty` ...; sells contribute the
negatives"). -/
def claimSign (e : TradeRecord) : ℚ :=
  if entSide e = "buy" then 1 else if entSide e = "sell" then -1 else 0

/-- Net quantity of a symbol as the specification describes it: the sum over
the records of that symbol of `+qty` for buys and `-qty` for sells. -/
def claimQty (hist : List TradeRecord) (s : String) : ℚ :=
  (hist.map (fun e => if entSym e = s then claimSign e * entQty e else 0)).sum

/-- Total cost of a symbol as the specification describes it: the analogously
signed sum of `qty*price`, a missing price contributing zero cost. -/
def claimCost (hist : List TradeRecord) (s : String) : ℚ :=
  (hist.map (fun e => if entSym e = s then claimSign e * entQty e * entCostPrice e else 0)).sum

/-- Replace the side of every record that is not a (case-insensitive) buy by
the literal string `"sell"`; used to state that the source treats every
non-buy record exactly as a sell. -/
def sellNormalize (e : TradeRecord) : TradeRecord :=
  if entSide e = "buy" then e else { e with side := some "sell" }

/-- Variant of `order_paper` with the success of the two durable writes made explicit:
`_save_history` (main.py lines 35-41) and `_save_json` on the risk state
(lines 68-73) wrap the write in `try/except: pass`, so a failed write leaves
the file unchanged while the control flow and the response are unaffected. -/
def submitOrderFallible (saveHistOk saveStateOk : Bool) (risk : RiskPolicy)
    (o : Order) (now : ℚ) (today ts mode : String) (w : World) : Outcome × World :=
  let mem := rolloverReset w.stateDisk today
  let er := enforceRisk risk o now today mem
  let disk2 := match er.saved with
    | some s => if saveStateOk then s else w.stateDisk
    | none => if saveStateOk then mem else w.stateDisk
  match er.rej with
  | some (k, reason) => (.rejected k reason, { w with stateDisk := disk2 })
  | none =>
      let oid := hexStr (w.positionsLen + 1)
      let entry : TradeRecord :=
        { id := oid, ts := ts, symbol := some o.symbol, side := some o.side
          qty := some o.qty, price := o.price, mode := mode }
      (.admitted oid,
        { stateDisk := if saveStateOk then afterFill er.state now 0 else disk2
          historyDisk := if saveHistOk then w.historyDisk ++ [entry] else w.historyDisk
          positionsLen := w.positionsLen + 1 })

/-! Concrete inputs used by the example-level parts of the claims and by the
witnesses. Policies are written `⟨max_orders_per_min, daily_loss_limit,
max_position_qty, max_notional⟩`, orders `⟨symbol, side, qty, price⟩`, states
`⟨day, orders_last_min, pnl_day, blocked, block_reason⟩`. -/

/-- A policy with qty cap 1 and notional cap 100, both violated by `c1Order`. -/
def c1Policy : RiskPolicy := ⟨30, 0, 1, 100⟩

def c1Order : Order := ⟨"BTCUSDT", "buy", 5, some 50⟩

/-- A blocked state (same day), also matching the qty and notional rules. -/
def c1State : RiskState := ⟨"2024-01-01", [], 0, true, "manual"⟩

/-- Daily loss limit 100, every other rule disabled or unmatched. -/
def c2Policy : RiskPolicy := ⟨30, 100, 0, 0⟩

def c2Order : Order := ⟨"BTCUSDT", "sell", 1, none⟩

/-- Same-day state with `pnl_day = -150`, not blocked. -/
def c2State : RiskState := ⟨"2024-01-01", [], -150, false, ""⟩

/-- Policy with `max_orders_per_min = 2`, everything else disabled. -/
def c3Policy : RiskPolicy := ⟨2, 0, 0, 0⟩

def c3Order : Order := ⟨"BTCUSDT", "buy", 1, none⟩

/-- First of three submissions within one second (timestamps 0, 1/2, 1). -/
def c3Run1 : Outcome × World :=
  submitOrder c3Policy c3Order 0 "2024-01-01" "t1" "paper" ⟨freshState "2024-01-01", [], 0⟩

def c3Run2 : Outcome × World :=
  submitOrder c3Policy c3Order (1/2) "2024-01-01" "t2" "paper" c3Run1.2

def c3Run3 : Outcome × World :=
  submitOrder c3Policy c3Order 1 "2024-01-01" "t3" "paper" c3Run2.2

/-- Policy with `max_notional = 1000`, everything else disabled. -/
def c4Policy : RiskPolicy := ⟨30, 0, 0, 1000⟩

/-- Notional `2 * 600 = 1200 > 1000`. -/
def c4Order : Order := ⟨"BTCUSDT", "buy", 2, some 600⟩

/-- Policy with `max_orders_per_min = 2` and `daily_loss_limit = 100`. -/
def c5Policy : RiskPolicy := ⟨2, 100, 0, 0⟩

def c5Order : Order := ⟨"ETHUSDT", "buy", 1, none⟩

/-- A stale-day state: latched daily-loss block, deep negative PnL and a full
rate-limit window from the prior day. -/
def c5Stale : RiskState := ⟨"2024-01-01", [0, 10], -500, true, "daily loss limit exceeded"⟩

/-- Qty cap 1, violated by `c6Order`. -/
def c6Policy : RiskPolicy := ⟨30, 0, 1, 0⟩

def c6Order : Order := ⟨"BTCUSDT", "buy", 2, none⟩

def c6Rec : TradeRecord := ⟨"0x1", "t0", some "BTCUSDT", some "buy", some 1, some 10, "paper"⟩

/-- A same-day world with one ledger record, one window timestamp and a
nonzero PnL. -/
def c6World : World := ⟨⟨"2024-01-01", [5], -3, false, ""⟩, [c6Rec], 4⟩

/-- A small ledger: two trades on `"AAA"` (one with no price) and an
uppercase-side sell on `"BBB"`. -/
def c7Hist : List TradeRecord :=
  [⟨"0x1", "t1", some "AAA", some "buy", some 2, some 10, "paper"⟩,
   ⟨"0x2", "t2", some "AAA", some "sell", some 1, none, "paper"⟩,
   ⟨"0x3", "t3", some "BBB", some "SELL", some 3, some 5, "paper"⟩]

/-- A permissive policy: only the default rate cap, everything else disabled. -/
def basicPolicy : RiskPolicy := ⟨30, 0, 0, 0⟩

def c8Order : Order := ⟨"BTCUSDT", "buy", 1, some 10⟩

/-- First run: one admitted order starting from an empty world. -/
def c8Run1 : Outcome × World :=
  submitOrder basicPolicy c8Order 0 "2024-01-01" "t1" "paper" ⟨freshState "2024-01-01", [], 0⟩

/-- Second run: the process restarts (ledger and state reload from disk, the
id counter does not), then one more order is admitted the same day. -/
def c8Run2 : Outcome × World :=
  submitOrder basicPolicy c8Order 1 "2024-01-01" "t2" "paper" (restart c8Run1.2)

def c9Order : Order := ⟨"ETHUSDT", "buy", 1, none⟩

/-- A submission during which both durable writes fail. -/
def c9Run : Outcome × World :=
  submitOrderFallible false false basicPolicy c9Order 0 "2024-01-01" "t1" "paper"
    ⟨freshState "2024-01-01", [], 0⟩

/-- A record with an invalid side string. -/
def c10Rec : TradeRecord := ⟨"0x9", "t", some "CCC", some "hold", some 4, some 7, "paper"⟩

end TradeExec

attribute [local semireducible] Rat.add Rat.mul Rat.sub Rat.inv

namespace TradeExec

theorem rolloverReset_day (st : RiskState) (today : String) :
    (rolloverReset st today).day = today := by
  unfold rolloverReset
  split
  · rfl
  · next h => simpa using h

theorem rolloverReset_self (st : RiskState) (today : String) (h : st.day = today) :
    rolloverReset st today = st := by
  simp [rolloverReset, h]

theorem rolloverReset_idem (st : RiskState) (today : String) :
    rolloverReset (rolloverReset st today) today = rolloverReset st today :=
  rolloverReset_self _ _ (rolloverReset_day st today)

theorem enforceRisk_rollover (risk : RiskPolicy) (o : Order) (now : ℚ)
    (today : String) (st : RiskState) :
    enforceRisk risk o now today (rolloverReset st today) =
      enforceRisk risk o now today st := by
  unfold enforceRisk latchedOf
  rw [rolloverReset_idem]

theorem latchedOf_day (st : RiskState) (today : String) :
    (latchedOf st today).day = today :=
  rolloverReset_day st today

theorem enforceRisk_blocked (risk : RiskPolicy) (o : Order) (now : ℚ)
    (today : String) (s : RiskState) (hday : s.day = today) (hbl : s.blocked = true) :
    (enforceRisk risk o now today s).rej = some (.Blocked, s.block_reason) := by
  have h1 : rolloverReset s today = s := rolloverReset_self s today hday
  simp [enforceRisk, h1, condBlocked, hbl]

theorem enforceRisk_saved_none (risk : RiskPolicy) (o : Order) (now : ℚ)
    (today : String) (st : RiskState) (k : RejectKind) (reason : String)
    (h : (enforceRisk risk o now today st).rej = some (k, reason))
    (hk : k ≠ .DailyLossExceeded) :
    (enforceRisk risk o now today st).saved = none := by
  revert h
  unfold enforceRisk
  cases hcb : condBlocked (rolloverReset st today) <;>
    cases hcq : condQty risk o <;>
      cases hcn : condNotional risk o <;>
        cases hcr : condRate risk (rolloverReset st today) now <;>
          cases hcl : condDailyLoss risk (rolloverReset st today) <;>
            intro h <;> simp_all

/-- C1: the five rejection rules of `_enforce_risk` are checked in the fixed
source sequence global block, quantity cap, notional cap, rate limit,
daily-loss limit (all on the post-rollover state), and the first matching rule
determines the rejection kind: whenever rule `r` matches and no earlier rule
does, the result is a rejection of the kind of `r`, regardless of which later
rules also match. -/
theorem risk_rules_first_match (risk : RiskPolicy) (o : Order) (now : ℚ)
    (today : String) (st : RiskState) (r : Rule)
    (hr : ruleCond risk o now (rolloverReset st today) r = true)
    (hmin : ∀ r', ruleIdx r' < ruleIdx r →
      ruleCond risk o now (rolloverReset st today) r' = false) :
    ∃ reason, (enforceRisk risk o now today st).rej = some (ruleKind r, reason) := by
  cases r with
  | blocked =>
      simp only [ruleCond] at hr
      exact ⟨(rolloverReset st today).block_reason, by simp [enforceRisk, ruleKind, hr]⟩
  | qtyCap =>
      have h0 := hmin .blocked (by decide)
      simp only [ruleCond] at hr h0
      exact ⟨"qty>" ++ toString risk.max_position_qty,
        by simp [enforceRisk, ruleKind, hr, h0]⟩
  | notionalCap =>
      have h0 := hmin .blocked (by decide)
      have h1 := hmin .qtyCap (by decide)
      simp only [ruleCond] at hr h0 h1
      exact ⟨"notional limit", by simp [enforceRisk, ruleKind, hr, h0, h1]⟩
  | rateLimited =>
      have h0 := hmin .blocked (by decide)
      have h1 := hmin .qtyCap (by decide)
      have h2 := hmin .notionalCap (by decide)
      simp only [ruleCond] at hr h0 h1 h2
      exact ⟨"too many orders per minute",
        by simp [enforceRisk, ruleKind, hr, h0, h1, h2]⟩
  | dailyLoss =>
      have h0 := hmin .blocked (by decide)
      have h1 := hmin .qtyCap (by decide)
      have h2 := hmin .notionalCap (by decide)
      have h3 := hmin .rateLimited (by decide)
      simp only [ruleCond] at hr h0 h1 h2 h3
      exact ⟨"daily loss limit exceeded",
        by simp [enforceRisk, ruleKind, hr, h0, h1, h2, h3]⟩

theorem risk_rules_first_match_witness :
    ruleCond c1Policy c1Order 0 (rolloverReset c1State "2024-01-01") .blocked = true ∧
    ruleCond c1Policy c1Order 0 (rolloverReset c1State "2024-01-01") .qtyCap = true ∧
    ruleCond c1Policy c1Order 0 (rolloverReset c1State "2024-01-01") .notionalCap = true ∧
    ∃ reason, (enforceRisk c1Policy c1Order 0 "2024-01-01" c1State).rej =
      some (ruleKind .blocked, reason) :=
  ⟨by decide, by decide, by decide,
    risk_rules_first_match c1Policy c1Order 0 "2024-01-01" c1State .blocked
      (by decide) (by decide)⟩

/-- C2: when the daily-loss rule is reached (no earlier rule matched) with
`daily_loss_limit > 0` and `-pnl_day >= daily_loss_limit`, the evaluation
rejects with kind `DailyLossExceeded`, latches `blocked = true` with
`block_reason = "daily loss limit exceeded"`, persists exactly that state;
every subsequent same-day evaluation on the latched state rejects with
`Blocked`, a whole submission from that pre-state returns the daily-loss
rejection with the latched state on disk, and the manual unblock clears
`blocked` and `block_reason` without altering `pnl_day`. -/
theorem daily_loss_latches (risk : RiskPolicy) (o : Order) (now : ℚ)
    (today : String) (st : RiskState)
    (hb : condBlocked (rolloverReset st today) = false)
    (hq : condQty risk o = false)
    (hn : condNotional risk o = false)
    (hrate : condRate risk (rolloverReset st today) now = false)
    (hloss : condDailyLoss risk (rolloverReset st today) = true) :
    (enforceRisk risk o now today st).rej =
      some (.DailyLossExceeded, "daily loss limit exceeded") ∧
    (enforceRisk risk o now today st).state = latchedOf st today ∧
    (enforceRisk risk o now today st).saved = some (latchedOf st today) ∧
    (latchedOf st today).blocked = true ∧
    (latchedOf st today).block_reason = "daily loss limit exceeded" ∧
    (∀ o2 now2, (enforceRisk risk o2 now2 today (latchedOf st today)).rej =
      some (.Blocked, "daily loss limit exceeded")) ∧
    (∀ hist plen ts mode, submitOrder risk o now today ts mode ⟨st, hist, plen⟩ =
      (.rejected .DailyLossExceeded "daily loss limit exceeded",
        ⟨latchedOf st today, hist, plen⟩)) ∧
    (riskReset (latchedOf st today) today).blocked = false ∧
    (riskReset (latchedOf st today) today).block_reason = "" ∧
    (riskReset (latchedOf st today) today).pnl_day = (rolloverReset st today).pnl_day := by
  have her : enforceRisk risk o now today st =
      { rej := some (.DailyLossExceeded, "daily loss limit exceeded")
        state := latchedOf st today
        saved := some (latchedOf st today) } := by
    simp [enforceRisk, hb, hq, hn, hrate, hloss]
  have hlatchday : (latchedOf st today).day = today := latchedOf_day st today
  have hroll2 : rolloverReset (latchedOf st today) today = latchedOf st today :=
    rolloverReset_self _ _ hlatchday
  have hblocked2 : ∀ o2 now2, (enforceRisk risk o2 now2 today (latchedOf st today)).rej =
      some (.Blocked, "daily loss limit exceeded") := by
    intro o2 now2
    rw [enforceRisk_blocked risk o2 now2 today (latchedOf st today) hlatchday
      (by simp [latchedOf])]
    simp [latchedOf]
  refine ⟨by rw [her], by rw [her], by rw [her], by simp [latchedOf], by simp [latchedOf],
    hblocked2, ?_, ?_, ?_, ?_⟩
  · intro hist plen ts mode
    simp only [submitOrder, enforceRisk_rollover, her, Option.getD_some]
  · rw [show riskReset (latchedOf st today) today =
      { latchedOf st today with blocked := false, block_reason := "" } by
        unfold riskReset; rw [hroll2]]
  · rw [show riskReset (latchedOf st today) today =
      { latchedOf st today with blocked := false, block_reason := "" } by
        unfold riskReset; rw [hroll2]]
  · rw [show riskReset (latchedOf st today) today =
      { latchedOf st today with blocked := false, block_reason := "" } by
        unfold riskReset; rw [hroll2]]
    simp [latchedOf]

theorem daily_loss_latches_witness :
    (enforceRisk c2Policy c2Order 0 "2024-01-01" c2State).rej =
      some (.DailyLossExceeded, "daily loss limit exceeded") ∧
    (enforceRisk c2Policy c2Order 0 "2024-01-01" c2State).saved =
      some (latchedOf c2State "2024-01-01") :=
  have h := daily_loss_latches c2Policy c2Order 0 "2024-01-01" c2State
    (by decide) (by decide) (by decide) (by decide) (by decide)
  ⟨h.1, h.2.2.1⟩

/-- C3: once the earlier rules did not match, the evaluation rejects with
`RateLimited` exactly when the count of window timestamps within the trailing
60 seconds of "now" is at least `max_orders_per_min`; and concretely, with
`max_orders_per_min = 2`, of three orders submitted within one second the
first two are admitted and the third is rejected `RateLimited` (each admitted
order having recorded its timestamp into the window). -/
theorem rate_limit_exact :
    (∀ (risk : RiskPolicy) (o : Order) (now : ℚ) (today : String) (st : RiskState),
      condBlocked (rolloverReset st today) = false →
      condQty risk o = false →
      condNotional risk o = false →
      ((enforceRisk risk o now today st).rej =
          some (.RateLimited, "too many orders per minute") ↔
        risk.max_orders_per_min ≤
          (pruneWindow (rolloverReset st today).orders_last_min now).length)) ∧
    c3Run1.1 = .admitted "0x1" ∧
    c3Run2.1 = .admitted "0x2" ∧
    c3Run3.1 = .rejected .RateLimited "too many orders per minute" := by
  refine ⟨?_, by decide, by decide, by decide⟩
  intro risk o now today st hb hq hn
  by_cases hr : condRate risk (rolloverReset st today) now = true
  · have hcount := of_decide_eq_true hr
    simp [enforceRisk, hb, hq, hn, hr, hcount]
  · have hcount := of_decide_eq_false (eq_false_of_ne_true hr)
    simp only [Bool.not_eq_true] at hr
    by_cases hl : condDailyLoss risk (rolloverReset st today) = true
    · simp [enforceRisk, hb, hq, hn, hr, hl, hcount]
    · simp only [Bool.not_eq_true] at hl
      simp [enforceRisk, hb, hq, hn, hr, hl, hcount]

theorem rate_limit_exact_witness :
    (enforceRisk c3Policy c3Order 1 "2024-01-01" c3Run2.2.stateDisk).rej =
        some (.RateLimited, "too many orders per minute") ↔
      c3Policy.max_orders_per_min ≤
        (pruneWindow (rolloverReset c3Run2.2.stateDisk "2024-01-01").orders_last_min
          1).length :=
  rate_limit_exact.1 c3Policy c3Order 1 "2024-01-01" c3Run2.2.stateDisk
    (by decide) (by decide) (by decide)

/-- C4: for a non-negative configured cap, once the earlier rules did not
match, the evaluation rejects with `NotionalCapExceeded` exactly when
`max_notional > 0`, the order price is present, and `qty * price` exceeds
`max_notional`; with a missing price the check is skipped.  Concretely, under
`max_notional = 1000` an order with `qty = 2, price = 600` is rejected while
the same order without a price is admitted. -/
theorem notional_cap_exact :
    (∀ (risk : RiskPolicy) (o : Order) (now : ℚ) (today : String) (st : RiskState),
      0 ≤ risk.max_notional →
      condBlocked (rolloverReset st today) = false →
      condQty risk o = false →
      ((enforceRisk risk o now today st).rej = some (.NotionalCapExceeded, "notional limit") ↔
        (0 < risk.max_notional ∧ o.price ≠ none ∧
          risk.max_notional < o.qty * o.price.getD 0))) ∧
    (enforceRisk c4Policy c4Order 0 "2024-01-01" (freshState "2024-01-01")).rej =
      some (.NotionalCapExceeded, "notional limit") ∧
    (enforceRisk c4Policy { c4Order with price := none } 0 "2024-01-01"
      (freshState "2024-01-01")).rej = none := by
  refine ⟨?_, by decide, by decide⟩
  intro risk o now today st hmn hb hq
  by_cases hn : condNotional risk o = true
  · have hcond := of_decide_eq_true hn
    obtain ⟨h1, h2, h3⟩ := hcond
    constructor
    · intro _
      refine ⟨lt_of_le_of_ne hmn (Ne.symm h1), ?_, h3⟩
      cases hp : o.price with
      | none => rw [hp] at h2; simp [priceTruthy] at h2
      | some p => simp
    · intro _
      simp [enforceRisk, hb, hq, hn]
  · simp only [Bool.not_eq_true] at hn
    constructor
    · intro hrej
      exfalso
      revert hrej
      simp only [enforceRisk, hb, hq, hn]
      split
      · simp
      · split
        · simp
        · split <;> simp
    · rintro ⟨h1, h2, h3⟩
      exfalso
      apply absurd hn
      simp only [condNotional, decide_eq_false_iff_not, not_not, Bool.not_eq_false]
      refine ⟨ne_of_gt h1, ?_, h3⟩
      cases hp : o.price with
      | none => exact absurd hp h2
      | some p =>
          simp only [priceTruthy, decide_eq_true_eq]
          intro hp0
          rw [hp, hp0] at h3
          simp at h3
          exact absurd (lt_trans h1 h3) (lt_irrefl 0)

theorem notional_cap_exact_witness :
    (enforceRisk c4Policy c4Order 0 "2024-01-01" (freshState "2024-01-01")).rej =
        some (.NotionalCapExceeded, "notional limit") ↔
      (0 < c4Policy.max_notional ∧ c4Order.price ≠ none ∧
        c4Policy.max_notional < c4Order.qty * c4Order.price.getD 0) :=
  notional_cap_exact.1 c4Policy c4Order 0 "2024-01-01" (freshState "2024-01-01")
    (by decide) (by decide) (by decide)

/-- C5: the state used by every risk evaluation has `day = today`; whenever the
stored day differs from today the whole state is replaced in one step by the
fresh state (PnL 0, empty window, unblocked, empty reason, day set to today),
and evaluation proceeds exactly on that reset state.  Concretely, a stale
blocked state with a full rate window admits the next-day order that the prior
day would have rate-limited (and the daily-loss block is silently cleared). -/
theorem day_rollover_resets :
    (∀ (st : RiskState) (today : String), (rolloverReset st today).day = today) ∧
    (∀ (st : RiskState) (today : String), st.day ≠ today →
      rolloverReset st today = freshState today) ∧
    (∀ (risk : RiskPolicy) (o : Order) (now : ℚ) (today : String) (st : RiskState),
      enforceRisk risk o now today st = enforceRisk risk o now today (rolloverReset st today)) ∧
    c5Stale.blocked = true ∧
    (enforceRisk c5Policy c5Order 30 "2024-01-01"
      { c5Stale with blocked := false, block_reason := "" }).rej =
        some (.RateLimited, "too many orders per minute") ∧
    (submitOrder c5Policy c5Order 30 "2024-01-02" "t1" "paper" ⟨c5Stale, [], 0⟩).1 =
      .admitted "0x1" := by
  refine ⟨rolloverReset_day, ?_, ?_, by decide, by decide, by decide⟩
  · intro st today h
    simp [rolloverReset, h]
  · intro risk o now today st
    exact (enforceRisk_rollover risk o now today st).symm

theorem day_rollover_resets_witness :
    rolloverReset c5Stale "2024-01-02" = freshState "2024-01-02" :=
  day_rollover_resets.2.1 c5Stale "2024-01-02" (by decide)

/-- C6: a rejected submission never appends to the trade ledger nor bumps the
id counter; and when the rejection comes from a rule other than the daily-loss
rule (and no day rollover intervenes), the persisted risk state is exactly the
prior state — no timestamp enters the window, and PnL, block flag and reason
are unchanged. -/
theorem rejected_submission_pure (risk : RiskPolicy) (o : Order) (now : ℚ)
    (today ts mode : String) (w : World) (k : RejectKind) (reason : String)
    (h : (submitOrder risk o now today ts mode w).1 = .rejected k reason) :
    (submitOrder risk o now today ts mode w).2.historyDisk = w.historyDisk ∧
    (submitOrder risk o now today ts mode w).2.positionsLen = w.positionsLen ∧
    (k ≠ .DailyLossExceeded → w.stateDisk.day = today →
      (submitOrder risk o now today ts mode w).2 = w) := by
  cases her : (enforceRisk risk o now today (rolloverReset w.stateDisk today)).rej with
  | none =>
      exfalso
      revert h
      simp only [submitOrder, her]
      intro h
      exact absurd h (by simp)
  | some kr =>
      obtain ⟨k', reason'⟩ := kr
      have hout : (submitOrder risk o now today ts mode w).1 = .rejected k' reason' := by
        simp only [submitOrder, her]
      have hk : k' = k := by
        rw [hout] at h
        exact (Outcome.rejected.injEq _ _ _ _ ▸ h).1
      refine ⟨by simp only [submitOrder, her], by simp only [submitOrder, her], ?_⟩
      intro hkd hday
      have hroll : rolloverReset w.stateDisk today = w.stateDisk :=
        rolloverReset_self _ _ hday
      have hsaved : (enforceRisk risk o now today (rolloverReset w.stateDisk today)).saved
          = none :=
        enforceRisk_saved_none _ _ _ _ _ _ _ her (hk ▸ hkd)
      rw [hroll] at her hsaved
      simp only [submitOrder, hroll, her, hsaved, Option.getD_none]

theorem rejected_submission_pure_witness :
    (submitOrder c6Policy c6Order 6 "2024-01-01" "t9" "paper" c6World).2 = c6World :=
  (rejected_submission_pure c6Policy c6Order 6 "2024-01-01" "t9" "paper" c6World
    .QtyCapExceeded ("qty>" ++ toString c6Policy.max_position_qty)
    (by decide)).2.2 (by decide) (by decide)

theorem findSym_upd_self (l : List (String × ℚ × ℚ)) (s : String) (dq dc : ℚ) :
    findSym (updExposure l s dq dc) s =
      some (match findSym l s with
        | some (q, c) => (q + dq, c + dc)
        | none => (dq, dc)) := by
  induction l with
  | nil => simp [updExposure, findSym]
  | cons hd tl ih =>
      obtain ⟨s', q, c⟩ := hd
      by_cases h : s' = s
      · subst h
        simp [updExposure, findSym]
      · simp [updExposure, findSym, h, ih]

theorem findSym_upd_other (l : List (String × ℚ × ℚ)) (s s' : String) (dq dc : ℚ)
    (h : s' ≠ s) :
    findSym (updExposure l s' dq dc) s = findSym l s := by
  induction l with
  | nil => simp [updExposure, findSym, h]
  | cons hd tl ih =>
      obtain ⟨s'', q, c⟩ := hd
      by_cases h2 : s'' = s'
      · subst h2
        simp [updExposure, findSym, h]
      · by_cases h3 : s'' = s
        · subst h3
          simp [updExposure, findSym, h2]
        · simp [updExposure, findSym, h2, h3, ih]

theorem findSym_foldl_some (s : String) (hs : s ≠ "") :
    ∀ (hist : List TradeRecord) (acc : List (String × ℚ × ℚ)) (q c : ℚ),
      findSym acc s = some (q, c) →
      findSym (hist.foldl accumEntry acc) s =
        some (q + sumQty hist s, c + sumCost hist s) := by
  intro hist
  induction hist with
  | nil =>
      intro acc q c h
      simp [sumQty, sumCost, h]
  | cons e tl ih =>
      intro acc q c h
      rw [List.foldl_cons]
      by_cases h0 : entSym e = ""
      · have hskip : accumEntry acc e = acc := by simp [accumEntry, h0]
        have hne : ¬(entSym e = s) := by rw [h0]; exact fun hh => hs hh.symm
        rw [hskip, ih acc q c h]
        simp [sumQty, sumCost, hne]
      · by_cases h1 : entSym e = s
        · have hupd : accumEntry acc e =
              updExposure acc s (entSign e * entQty e)
                (entSign e * entQty e * entCostPrice e) := by
            rw [accumEntry, if_neg h0, h1]
          have hfind : findSym (accumEntry acc e) s =
              some (q + entSign e * entQty e,
                c + entSign e * entQty e * entCostPrice e) := by
            rw [hupd, findSym_upd_self, h]
          rw [ih _ _ _ hfind]
          simp [sumQty, sumCost, h1, add_assoc]
        · have hupd : accumEntry acc e =
              updExposure acc (entSym e) (entSign e * entQty e)
                (entSign e * entQty e * entCostPrice e) := by
            rw [accumEntry, if_neg h0]
          have hfind : findSym (accumEntry acc e) s = some (q, c) := by
            rw [hupd, findSym_upd_other _ _ _ _ _ h1, h]
          rw [ih _ _ _ hfind]
          simp [sumQty, sumCost, h1]

theorem findSym_foldl_none (s : String) (hs : s ≠ "") :
    ∀ (hist : List TradeRecord) (acc : List (String × ℚ × ℚ)),
      findSym acc s = none → (∃ e ∈ hist, entSym e = s) →
      findSym (hist.foldl accumEntry acc) s = some (sumQty hist s, sumCost hist s) := by
  intro hist
  induction hist with
  | nil =>
      intro acc h hmem
      obtain ⟨e, he, _⟩ := hmem
      exact absurd he (List.not_mem_nil e)
  | cons e tl ih =>
      intro acc h hmem
      rw [List.foldl_cons]
      by_cases h0 : entSym e = ""
      · have hskip : accumEntry acc e = acc := by simp [accumEntry, h0]
        have hne : ¬(entSym e = s) := by rw [h0]; exact fun hh => hs hh.symm
        have hmem2 : ∃ e' ∈ tl, entSym e' = s := by
          obtain ⟨e', he', hs'⟩ := hmem
          rcases List.mem_cons.mp he' with rfl | hmem3
          · exact absurd hs' hne
          · exact ⟨e', hmem3, hs'⟩
        rw [hskip, ih acc h hmem2]
        simp [sumQty, sumCost, hne]
      · by_cases h1 : entSym e = s
        · have hupd : accumEntry acc e =
              updExposure acc s (entSign e * entQty e)
                (entSign e * entQty e * entCostPrice e) := by
            rw [accumEntry, if_neg h0, h1]
          have hfind : findSym (accumEntry acc e) s =
              some (entSign e * entQty e, entSign e * entQty e * entCostPrice e) := by
            rw [hupd, findSym_upd_self, h]
          rw [findSym_foldl_some s hs tl _ _ _ hfind]
          simp [sumQty, sumCost, h1]
        · have hupd : accumEntry acc e =
              updExposure acc (entSym e) (entSign e * entQty e)
                (entSign e * entQty e * entCostPrice e) := by
            rw [accumEntry, if_neg h0]
          have hfind : findSym (accumEntry acc e) s = none := by
            rw [hupd, findSym_upd_other _ _ _ _ _ h1, h]
          have hmem2 : ∃ e' ∈ tl, entSym e' = s := by
            obtain ⟨e', he', hs'⟩ := hmem
            rcases List.mem_cons.mp he' with rfl | hmem3
            · exact absurd hs' h1
            · exact ⟨e', hmem3, hs'⟩
          rw [ih _ hfind hmem2]
          simp [sumQty, sumCost, h1]

theorem findPos_map_mkPos (s : String) :
    ∀ (l : List (String × ℚ × ℚ)),
      findPos (l.map mkPos) s =
        Option.map (fun qc : ℚ × ℚ => mkPos (s, qc.1, qc.2)) (findSym l s) := by
  intro l
  induction l with
  | nil => simp [findPos, findSym]
  | cons hd tl ih =>
      obtain ⟨s', q, c⟩ := hd
      by_cases h : s' = s
      · subst h
        simp [findPos, findSym, mkPos]
      · simp [findPos, findSym, mkPos, h, ih]

theorem claimQty_cons (e : TradeRecord) (tl : List TradeRecord) (s : String) :
    claimQty (e :: tl) s =
      (if entSym e = s then claimSign e * entQty e else 0) + claimQty tl s := by
  simp [claimQty]

theorem claimCost_cons (e : TradeRecord) (tl : List TradeRecord) (s : String) :
    claimCost (e :: tl) s =
      (if entSym e = s then claimSign e * entQty e * entCostPrice e else 0) +
        claimCost tl s := by
  simp [claimCost]

theorem sumQty_cons (e : TradeRecord) (tl : List TradeRecord) (s : String) :
    sumQty (e :: tl) s =
      (if entSym e = s then entSign e * entQty e else 0) + sumQty tl s := by
  simp [sumQty]

theorem sumCost_cons (e : TradeRecord) (tl : List TradeRecord) (s : String) :
    sumCost (e :: tl) s =
      (if entSym e = s then entSign e * entQty e * entCostPrice e else 0) +
        sumCost tl s := by
  simp [sumCost]

theorem claim_sums_eq (hist : List TradeRecord) (s : String) :
    (∀ e ∈ hist, entSide e = "buy" ∨ entSide e = "sell") →
    claimQty hist s = sumQty hist s ∧ claimCost hist s = sumCost hist s := by
  induction hist with
  | nil =>
      intro _
      simp [claimQty, claimCost, sumQty, sumCost]
  | cons e tl ih =>
      intro hside
      have he := hside e (List.mem_cons_self e tl)
      have ihs := ih (fun e' he' => hside e' (List.mem_cons_of_mem _ he'))
      have hsign : claimSign e = entSign e := by
        rcases he with h | h
        · simp [claimSign, entSign, h]
        · simp [claimSign, entSign, h]
      constructor
      · rw [claimQty_cons, sumQty_cons, hsign, ihs.1]
      · rw [claimCost_cons, sumCost_cons, hsign, ihs.2]

/-- C7: for every ledger whose records carry a non-empty symbol and a
(case-insensitive) buy or sell side, the positions result contains, for each
symbol appearing in a record, exactly the net quantity given by summing `+qty`
for buys and `-qty` for sells over the records of that symbol, and an average
entry price equal to the analogously signed cost sum (missing prices
contributing zero) divided by the net quantity when its absolute value exceeds
the epsilon `1e-8`, the price being omitted otherwise while the symbol still
appears. -/
theorem positions_recompute (hist : List TradeRecord) (s : String)
    (hside : ∀ e ∈ hist, entSide e = "buy" ∨ entSide e = "sell")
    (hs : ∃ e ∈ hist, entSym e = s) (hs0 : s ≠ "") :
    findPos (positionsOf hist) s =
      some { symbol := s, qty := claimQty hist s
             avg_price := if eps < |claimQty hist s| then
               some (claimCost hist s / claimQty hist s) else none } := by
  have hfold := findSym_foldl_none s hs0 hist [] (by simp [findSym]) hs
  have hmap := findPos_map_mkPos s (exposures hist)
  obtain ⟨cq, cc⟩ := claim_sums_eq hist s hside
  rw [show positionsOf hist = (exposures hist).map mkPos from rfl, hmap,
    show exposures hist = hist.foldl accumEntry [] from rfl, hfold, cq, cc]
  simp [mkPos]

theorem positions_recompute_witness :
    findPos (positionsOf c7Hist) "AAA" =
      some { symbol := "AAA", qty := 1, avg_price := some 20 } := by
  rw [positions_recompute c7Hist "AAA" (by decide) (by decide) (by decide)]
  decide

/-- C8 (code bug): record identifiers are not unique across a process restart.
The id is `hex(len(_positions)+1)` and `_positions` is in-memory only: after a
restart the ledger is reloaded but the counter is not, so the first order of
the second run receives the id `0x1` already present in the ledger —
contradicting the claimed monotone, unique identifiers. -/
theorem restart_duplicates_ids :
    c8Run1.1 = .admitted "0x1" ∧
    c8Run2.1 = .admitted "0x1" ∧
    c8Run2.2.historyDisk.map TradeRecord.id = ["0x1", "0x1"] := by decide

/-- C9 (code bug): a failing durable write is swallowed.  With both the ledger
write and the risk-state write failing, the submission still reports the order
as admitted, while neither the ledger nor the risk state on disk changed —
the hard error required by the claim is never raised. -/
theorem save_failure_swallowed :
    c9Run.1 = .admitted "0x1" ∧
    c9Run.2.historyDisk = [] ∧
    c9Run.2.stateDisk = freshState "2024-01-01" := by decide

/-- C10: in the positions computation every record whose side is not a
case-insensitive "buy" contributes exactly as a sell: replacing every non-buy
side by the literal string "sell" leaves the entire positions result
unchanged; and no record with a non-empty symbol is ever skipped because of
its side — its symbol always appears in the result. -/
theorem nonbuy_treated_as_sell :
    (∀ hist : List TradeRecord, positionsOf (hist.map sellNormalize) = positionsOf hist) ∧
    (∀ (hist : List TradeRecord) (e : TradeRecord), entSym e ≠ "" →
      findPos (positionsOf (hist ++ [e])) (entSym e) ≠ none) := by
  constructor
  · intro hist
    have hstep : ∀ acc e, accumEntry acc (sellNormalize e) = accumEntry acc e := by
      intro acc e
      by_cases h : entSide e = "buy"
      · simp [sellNormalize, h]
      · have h1 : entSym { e with side := some "sell" } = entSym e := rfl
        have h2 : entSide { e with side := some "sell" } = "sell" := by
          show strLower "sell" = "sell"
          decide
        have h3 : entQty { e with side := some "sell" } = entQty e := rfl
        have h4 : entCostPrice { e with side := some "sell" } = entCostPrice e := rfl
        have h5 : entSign { e with side := some "sell" } = entSign e := by
          rw [entSign, entSign, h2, if_neg, if_neg h]
          intro hh
          exact absurd hh (by decide)
        rw [sellNormalize, if_neg h, accumEntry, accumEntry, h1, h3, h4, h5]
    rw [positionsOf, positionsOf, exposures, exposures, List.foldl_map]
    congr 1
    exact List.foldl_ext _ _ _ (fun acc e _ => hstep acc e)
  · intro hist e h0
    have hmem : ∃ e' ∈ hist ++ [e], entSym e' = entSym e :=
      ⟨e, List.mem_append_right _ (List.mem_singleton_self e), rfl⟩
    have hfold := findSym_foldl_none (entSym e) h0 (hist ++ [e]) []
      (by simp [findSym]) hmem
    rw [show positionsOf (hist ++ [e]) = (exposures (hist ++ [e])).map mkPos from rfl,
      findPos_map_mkPos,
      show exposures (hist ++ [e]) = (hist ++ [e]).foldl accumEntry [] from rfl, hfold]
    simp

theorem nonbuy_treated_as_sell_witness :
    positionsOf ([c10Rec].map sellNormalize) = positionsOf [c10Rec] ∧
    findPos (positionsOf ([] ++ [c10Rec])) (entSym c10Rec) ≠ none :=
  ⟨nonbuy_treated_as_sell.1 [c10Rec],
    nonbuy_treated_as_sell.2 [] c10Rec (by decide)⟩

end TradeExec
